import Mathlib

/-
  Verification development for the offline-first sync subsystem of the
  cga-gestion application (source: src/utils/sync.ts, src/utils/forms.ts,
  src/utils/database/users.ts, src/utils/database/visits.ts,
  src/utils/database/roles.ts, src/utils/database/companies.ts and the
  src/utils/database/forms.ts module found under src/unnamed/part_008).

  The embedding is shallow: SQLite tables become Lean lists of typed row
  structures, the single-connection transactional discipline (BEGIN /
  COMMIT / ROLLBACK) becomes explicit state passing whose failure branch
  returns the pre-transaction state, remote (Supabase) calls become
  injected functions returning Except, and TEXT timestamps (which the
  code only ever compares with lexicographic ORDER BY / datetime
  arithmetic) become Nat instants.
-/

namespace Cga

/-! ## Sync queue (outbox) — src/utils/sync.ts

The sync_queue table schema (initializeSyncQueue, sync.ts lines 23-41):
id autoincrement, table_name, record_id TEXT, operation CHECK IN
(INSERT, UPDATE, DELETE), data TEXT (JSON payload), synced INTEGER
default 0, retry_count INTEGER default 0, error TEXT, created_at TEXT
default CURRENT_TIMESTAMP. -/

/-- Operation kinds admitted by the sync_queue CHECK constraint. -/
inductive Op
  | ins
  | upd
  | del
deriving DecidableEq, Repr

/-- One row of the sync_queue table.  created_at is an instant (the code
stores an ISO-like TEXT timestamp and orders lexicographically, which is
order-isomorphic to the instant). -/
structure QueueEntry where
  id : Nat
  table_name : String
  record_id : String
  operation : Op
  data : String
  synced : Bool
  retry_count : Nat
  error : Option String
  created_at : Nat
deriving DecidableEq, Repr

/-- Predicate of the drain query in processSyncQueue (sync.ts line 92):
synced = 0 AND retry_count < 3. -/
def pendingP (e : QueueEntry) : Bool :=
  (!e.synced) && e.retry_count < 3

/-- Insertion step of the ORDER BY created_at ASC sort. -/
def insertByLe {α : Type} (le : α → α → Bool) (a : α) : List α → List α
  | [] => [a]
  | x :: xs => if le a x then a :: x :: xs else x :: insertByLe le a xs

/-- Insertion sort used to model SQL ORDER BY on a boolean key order. -/
def sortByLe {α : Type} (le : α → α → Bool) : List α → List α
  | [] => []
  | x :: xs => insertByLe le x (sortByLe le xs)

/-- Comparison of queue entries by creation time. -/
def leCreated (a b : QueueEntry) : Bool :=
  decide (a.created_at ≤ b.created_at)

/-- The SELECT of processSyncQueue (sync.ts lines 91-93):
rows with synced = 0 AND retry_count < 3, ORDER BY created_at ASC. -/
def drainPending (q : List QueueEntry) : List QueueEntry :=
  sortByLe leCreated (q.filter pendingP)

/-- A request issued to the remote collaborator (Supabase) by the upload
dispatch of processSyncQueue. -/
inductive RemoteReq
  | upsert (table : String) (payload : String)
  | upsertWithId (table : String) (payload : String) (id : Int)
  | deleteWhere (table : String) (key1 : String) (v1 : Int) (key2 : String) (v2 : Int)
  | softDelete (table : String) (id : Int)
deriving DecidableEq, Repr

/-- Accumulating decimal-numeral parser over characters. -/
def parseNatAux (acc : Nat) : List Char → Option Nat
  | [] => some acc
  | c :: cs =>
    if '0' ≤ c ∧ c ≤ '9' then parseNatAux (acc * 10 + (c.toNat - '0'.toNat)) cs
    else none

/-- JS Number(s) on the split parts of record_id, totalised: the
identities the repositories enqueue are decimal numerals. -/
def parseNum (s : String) : Int :=
  ((parseNatAux 0 s.data).map Int.ofNat).getD 0

/-- JS String.prototype.split with separator comma: cuts at every comma,
keeping empty segments. -/
def splitCommaAux (acc : List Char) : List Char → List String
  | [] => [String.mk acc.reverse]
  | c :: cs =>
    if c = ',' then String.mk acc.reverse :: splitCommaAux [] cs
    else splitCommaAux (c :: acc) cs

/-- record_id.split(',') of the upload dispatch. -/
def splitComma (s : String) : List String :=
  splitCommaAux [] s.data

/-- Composite-key tables singled out by processSyncQueue (sync.ts
line 103). -/
def isJunction (t : String) : Bool :=
  t = "user_roles" || t = "user_companies" || t = "form_companies"

/-- Upload dispatch of one queue entry (sync.ts lines 102-144).
For junction-table DELETE the code computes, verbatim:
  key1 = table_name === user_roles ? user_id : user_id
  key2 = table_name === user_roles ? role_id : company_id
(the key1 ternary has identical branches in the source). -/
def dispatch (e : QueueEntry) : RemoteReq :=
  if isJunction e.table_name then
    match e.operation with
    | .del =>
      let parts := splitComma e.record_id
      let id1 := parseNum (parts.getD 0 "")
      let id2 := parseNum (parts.getD 1 "")
      let key1 := if e.table_name = "user_roles" then "user_id" else "user_id"
      let key2 := if e.table_name = "user_roles" then "role_id" else "company_id"
      .deleteWhere e.table_name key1 id1 key2 id2
    | _ => .upsert e.table_name e.data
  else
    match e.operation with
    | .del => .softDelete e.table_name (parseNum e.record_id)
    | _ => .upsertWithId e.table_name e.data (parseNum e.record_id)

/-- Outcome bookkeeping for one processed entry (sync.ts lines 146-164):
on success synced := 1 and error cleared, on failure retry_count is
incremented and the error message recorded. -/
def processEntry (remote : RemoteReq → Except String Unit) (e : QueueEntry) : QueueEntry :=
  match remote (dispatch e) with
  | .ok _ => { e with synced := true, error := none }
  | .error msg => { e with retry_count := e.retry_count + 1, error := some msg }

/-- Seven days in seconds, the age threshold of the cleanup DELETE. -/
def sevenDays : Nat := 7 * 24 * 60 * 60

/-- Cleanup pass (sync.ts lines 168-170): DELETE FROM sync_queue WHERE
(synced = 1 OR retry_count >= 3) AND created_at < datetime(now, -7 days). -/
def purgeOld (now : Nat) (q : List QueueEntry) : List QueueEntry :=
  q.filter (fun e => !((e.synced || decide (3 ≤ e.retry_count)) && decide (e.created_at + sevenDays < now)))

/-- processSyncQueue (sync.ts lines 73-174), modelled from its drain
onward: the pending rows are fetched (drainPending), each is dispatched
to the remote in that order and its bookkeeping written back by id, then
the cleanup DELETE runs.  The first component collects the remote
requests in the order they are issued. -/
def processSyncQueue (remote : RemoteReq → Except String Unit) (now : Nat)
    (q : List QueueEntry) : List RemoteReq × List QueueEntry :=
  let pending := drainPending q
  let reqs := pending.map dispatch
  let q1 := q.map (fun e => if pendingP e then processEntry remote e else e)
  (reqs, purgeOld now q1)

/-! Sorting lemmas for the drain model. -/

theorem mem_insertByLe {α : Type} (le : α → α → Bool) (a b : α) (l : List α) :
    b ∈ insertByLe le a l ↔ b = a ∨ b ∈ l := by
  induction l with
  | nil => simp [insertByLe]
  | cons x xs ih =>
    simp only [insertByLe]
    by_cases h : le a x = true
    · rw [if_pos h]
      simp only [List.mem_cons]
    · rw [if_neg h]
      simp only [List.mem_cons, ih]
      tauto

theorem mem_sortByLe {α : Type} (le : α → α → Bool) (b : α) (l : List α) :
    b ∈ sortByLe le l ↔ b ∈ l := by
  induction l with
  | nil => simp [sortByLe]
  | cons x xs ih =>
    simp [sortByLe, mem_insertByLe, ih, List.mem_cons]

theorem perm_insertByLe {α : Type} (le : α → α → Bool) (a : α) (l : List α) :
    (insertByLe le a l).Perm (a :: l) := by
  induction l with
  | nil => simp [insertByLe]
  | cons x xs ih =>
    simp only [insertByLe]
    by_cases h : le a x = true
    · rw [if_pos h]
    · rw [if_neg h]
      exact List.Perm.trans (List.Perm.cons x ih) (List.Perm.swap a x xs)

theorem perm_sortByLe {α : Type} (le : α → α → Bool) (l : List α) :
    (sortByLe le l).Perm l := by
  induction l with
  | nil => simp [sortByLe]
  | cons x xs ih =>
    exact List.Perm.trans (perm_insertByLe le x (sortByLe le xs)) (List.Perm.cons x ih)

theorem pairwise_insertByLe {α : Type} (le : α → α → Bool)
    (htot : ∀ a b, le a b = true ∨ le b a = true)
    (htrans : ∀ a b c, le a b = true → le b c = true → le a c = true)
    (a : α) (l : List α)
    (hl : l.Pairwise (fun x y => le x y = true)) :
    (insertByLe le a l).Pairwise (fun x y => le x y = true) := by
  induction l with
  | nil => simp [insertByLe]
  | cons x xs ih =>
    rcases List.pairwise_cons.mp hl with ⟨hx, hxs⟩
    simp only [insertByLe]
    by_cases h : le a x = true
    · rw [if_pos h]
      refine List.pairwise_cons.mpr ⟨?_, hl⟩
      intro b hb
      rcases List.mem_cons.mp hb with rfl | hb
      · exact h
      · exact htrans a x b h (hx b hb)
    · rw [if_neg h]
      refine List.pairwise_cons.mpr ⟨?_, ih hxs⟩
      intro b hb
      rcases (mem_insertByLe le a b xs).mp hb with rfl | hb
      · rcases htot x b with hxb | hbx
        · exact hxb
        · cases h hbx
      · exact hx b hb

theorem pairwise_sortByLe {α : Type} (le : α → α → Bool)
    (htot : ∀ a b, le a b = true ∨ le b a = true)
    (htrans : ∀ a b c, le a b = true → le b c = true → le a c = true)
    (l : List α) :
    (sortByLe le l).Pairwise (fun x y => le x y = true) := by
  induction l with
  | nil => simp [sortByLe]
  | cons x xs ih => exact pairwise_insertByLe le htot htrans x (sortByLe le xs) ih

/-- Claim C5: the drain of processSyncQueue selects exactly the rows
with synced = false and retry_count < 3 (as a multiset: it is a
permutation of that filter, hence membership coincides), its output is
ordered by created_at ascending, and the requests dispatched by
processSyncQueue are exactly those drained rows in that order — so for
pending rows with creation timestamps t1 < t2 < t3 the drain processes
them in that order (a sorted permutation with distinct keys is unique). -/
theorem c5_drain_fifo (q : List QueueEntry) :
    (∀ e, e ∈ drainPending q ↔ e ∈ q ∧ pendingP e = true) ∧
    (drainPending q).Perm (q.filter pendingP) ∧
    (drainPending q).Pairwise (fun a b => a.created_at ≤ b.created_at) ∧
    (∀ remote now, (processSyncQueue remote now q).1 = (drainPending q).map dispatch) := by
  refine ⟨?_, ?_, ?_, ?_⟩
  · intro e
    rw [drainPending, mem_sortByLe, List.mem_filter]
  · exact perm_sortByLe leCreated (q.filter pendingP)
  · have h := pairwise_sortByLe leCreated
      (fun a b => by
        rcases Nat.le_total a.created_at b.created_at with h | h
        · exact Or.inl (by simp [leCreated, h])
        · exact Or.inr (by simp [leCreated, h]))
      (fun a b c hab hbc => by
        simp only [leCreated, decide_eq_true_eq] at hab hbc ⊢
        exact Nat.le_trans hab hbc)
      (q.filter pendingP)
    exact h.imp (fun hab => by
      simpa [leCreated, decide_eq_true_eq] using hab)
  · intro remote now
    rfl

/-- Claim C6: a sync_queue row that has failed exactly maxRetry = 3
times (retry_count = 3) is excluded from the drain, hence never
attempted again; the cleanup pass of processSyncQueue deletes it once it
is older than the 7-day threshold, and until then it remains in the
table untouched. -/
theorem c6_retry_cap_quarantine (e : QueueEntry) (q : List QueueEntry)
    (remote : RemoteReq → Except String Unit) (now : Nat)
    (hq : e ∈ q) (hr : e.retry_count = 3) :
    e ∉ drainPending q ∧
    (e.created_at + sevenDays < now → e ∉ (processSyncQueue remote now q).2) ∧
    (¬ e.created_at + sevenDays < now → e ∈ (processSyncQueue remote now q).2) := by
  have hpend : pendingP e = false := by
    simp [pendingP, hr]
  have hq1 : e ∈ q.map (fun x => if pendingP x then processEntry remote x else x) := by
    have : (fun x => if pendingP x then processEntry remote x else x) e = e := by
      simp [hpend]
    rw [← this]
    exact List.mem_map_of_mem _ hq
  refine ⟨?_, ?_, ?_⟩
  · intro hmem
    rw [drainPending, mem_sortByLe, List.mem_filter] at hmem
    rw [hmem.2] at hpend
    cases hpend
  · intro hold hmem
    have := (List.mem_filter.mp hmem).2
    rw [hr] at this
    simp [hold] at this
  · intro hold
    refine List.mem_filter.mpr ⟨hq1, ?_⟩
    rw [hr]
    simp [hold]

/-- The concrete failing input of claim C4: a DELETE enqueued for the
form_companies junction with composite record identity 5,12, exactly as
updateForm and deleteForm enqueue it. -/
def fcDeleteEntry : QueueEntry :=
  { id := 1, table_name := "form_companies", record_id := "5,12",
    operation := .del, data := "d", synced := false, retry_count := 0,
    error := none, created_at := 0 }

/-- Claim C4 (code bug): the upload dispatch of a form_companies DELETE
with identity 5,12 issues a remote delete filtered on user_id = 5 AND
company_id = 12, whereas the form_companies table's key columns are
form_id and company_id (the table has no user_id column): the key1
ternary in sync.ts line 114 yields user_id in both branches.  The claim
(delete filtered on form_id = 5 AND company_id = 12) is what both the
spec and the schema require; the code diverges at this input. -/
theorem c4_form_companies_delete_eval :
    dispatch fcDeleteEntry =
      .deleteWhere "form_companies" "user_id" 5 "company_id" 12 ∧
    dispatch fcDeleteEntry ≠
      .deleteWhere "form_companies" "form_id" 5 "company_id" 12 := by
  constructor
  · decide
  · decide

/-! ## Download engine — downloadUpdates (src/utils/sync.ts lines 177-269)

The download loop is table-generic in the source: for each table of a
fixed dependency-ordered list it selects all remote rows with
deleted_at IS NULL, skips the table when the reply is empty, otherwise
clears the table when marked clearFirst and then INSERT OR REPLACEs
each fetched row.  Rows are modelled atomically (key, soft-delete
marker, payload); the primary key is the key field.  All of this runs
inside one local transaction whose failure branch rolls back to the
pre-transaction state and re-raises. -/

/-- A generic row as handled by the download loop. -/
structure DRow where
  key : String
  deleted_at : Option String
  payload : String
deriving DecidableEq, Repr

/-- One entry of the dependency-ordered table list of downloadUpdates. -/
structure TableCfg where
  name : String
  clearFirst : Bool
deriving DecidableEq, Repr

/-- The table list of downloadUpdates (sync.ts lines 188-200), in its
dependency order, with its clearFirst marks. -/
def dlTables : List TableCfg :=
  [⟨"users", true⟩, ⟨"companies", true⟩, ⟨"roles", true⟩,
   ⟨"user_roles", false⟩, ⟨"user_companies", false⟩,
   ⟨"forms", true⟩, ⟨"form_fields", false⟩, ⟨"form_companies", false⟩,
   ⟨"visits", false⟩, ⟨"form_responses", false⟩, ⟨"form_field_responses", false⟩]

/-- The local store as seen by the download loop: table name to rows. -/
def LocalDB : Type := String → List DRow

/-- Write one table of the local store. -/
def setT (db : LocalDB) (t : String) (rows : List DRow) : LocalDB :=
  fun u => if u = t then rows else db u

/-- SQLite INSERT OR REPLACE keyed by primary key: any row with the same
key is removed and the fetched row inserted. -/
def insertOrReplace (rows : List DRow) (r : DRow) : List DRow :=
  (rows.filter (fun x => !(x.key = r.key))) ++ [r]

/-- The per-row insert loop of one table, with injected local-write
failure (wf names the error of a failing INSERT, none meaning success);
the first failing insert aborts the table (sync.ts lines 223-237). -/
def insertAll (wf : String → DRow → Option String) (t : String) :
    List DRow → List DRow → Except String (List DRow)
  | [], acc => .ok acc
  | r :: rs, acc =>
    match wf t r with
    | some msg => .error msg
    | none => insertAll wf t rs (insertOrReplace acc r)

/-- Net effect of the loop body on one table's rows (sync.ts lines
216-237): an empty reply is skipped before the clear (the continue at
line 216 precedes the clearFirst DELETE), otherwise the table is
cleared when marked clearFirst and every fetched row upserted. -/
def tableOutcome (wf : String → DRow → Option String) (cfg : TableCfg)
    (prior : List DRow) (rows : List DRow) : Except String (List DRow) :=
  if rows.isEmpty then .ok prior
  else insertAll wf cfg.name rows (if cfg.clearFirst then [] else prior)

/-- The loop body lifted to the whole store. -/
def applyTable (wf : String → DRow → Option String) (db : LocalDB)
    (cfg : TableCfg) (rows : List DRow) : Except String LocalDB :=
  (tableOutcome wf cfg (db cfg.name) rows).map (setT db cfg.name)

/-- The remote fetch of one table: the select carries the
deleted_at IS NULL filter; .error models a failed fetch. -/
def fetchActive (remote : String → Except String (List DRow)) (t : String) :
    Except String (List DRow) :=
  (remote t).map (fun rows => rows.filter (fun r => r.deleted_at = none))

/-- The table loop of downloadUpdates inside the global transaction:
any fetch or write failure aborts the whole loop. -/
def downloadLoop (remote : String → Except String (List DRow))
    (wf : String → DRow → Option String) :
    List TableCfg → LocalDB → Except String LocalDB
  | [], db => .ok db
  | cfg :: rest, db =>
    match fetchActive remote cfg.name with
    | .error e => .error e
    | .ok rows =>
      match applyTable wf db cfg rows with
      | .error e => .error e
      | .ok db2 => downloadLoop remote wf rest db2

/-- downloadUpdates: one global transaction over the table list; COMMIT
on success, ROLLBACK (restoring the pre-transaction store) and re-raise
on any failure.  The second component is the raised error, if any. -/
def downloadUpdates (remote : String → Except String (List DRow))
    (wf : String → DRow → Option String) (db : LocalDB) :
    LocalDB × Option String :=
  match downloadLoop remote wf dlTables db with
  | .ok db2 => (db2, none)
  | .error e => (db, some e)

/-! Structural lemmas about the download loop. -/

theorem setT_same (db : LocalDB) (t : String) (rows : List DRow) :
    setT db t rows t = rows := by
  simp [setT]

theorem setT_other (db : LocalDB) (t u : String) (rows : List DRow)
    (h : u ≠ t) : setT db t rows u = db u := by
  simp [setT, h]

theorem applyTable_ok_other (wf : String → DRow → Option String)
    (db db2 : LocalDB) (cfg : TableCfg) (rows : List DRow) (u : String)
    (h : applyTable wf db cfg rows = .ok db2) (hu : u ≠ cfg.name) :
    db2 u = db u := by
  unfold applyTable at h
  cases hto : tableOutcome wf cfg (db cfg.name) rows with
  | error e => rw [hto] at h; cases h
  | ok out =>
    rw [hto] at h
    simp only [Except.map] at h
    cases h
    exact setT_other db cfg.name u out hu

theorem applyTable_ok_same (wf : String → DRow → Option String)
    (db db2 : LocalDB) (cfg : TableCfg) (rows : List DRow)
    (h : applyTable wf db cfg rows = .ok db2) :
    tableOutcome wf cfg (db cfg.name) rows = .ok (db2 cfg.name) := by
  unfold applyTable at h
  cases hto : tableOutcome wf cfg (db cfg.name) rows with
  | error e => rw [hto] at h; cases h
  | ok out =>
    rw [hto] at h
    simp only [Except.map] at h
    cases h
    rw [setT_same]

theorem downloadLoop_ok_untouched (remote : String → Except String (List DRow))
    (wf : String → DRow → Option String) :
    ∀ (l : List TableCfg) (db db2 : LocalDB) (u : String),
    downloadLoop remote wf l db = .ok db2 →
    (∀ cfg ∈ l, cfg.name ≠ u) → db2 u = db u := by
  intro l
  induction l with
  | nil =>
    intro db db2 u h _
    cases h
    rfl
  | cons cfg rest ih =>
    intro db db2 u h hnames
    revert h
    unfold downloadLoop
    cases hf : fetchActive remote cfg.name with
    | error e =>
      intro h
      cases h
    | ok rows =>
      intro h
      dsimp only at h
      revert h
      cases ha : applyTable wf db cfg rows with
      | error e =>
        intro h
        cases h
      | ok dbm =>
        intro h
        dsimp only at h
        have h1 : dbm u = db u :=
          applyTable_ok_other wf db dbm cfg rows u ha
            (fun he => hnames cfg (List.mem_cons_self cfg rest) he.symm)
        have h2 : db2 u = dbm u :=
          ih dbm db2 u h (fun c hc => hnames c (List.mem_cons_of_mem cfg hc))
        rw [h2, h1]

theorem downloadLoop_ok_table (remote : String → Except String (List DRow))
    (wf : String → DRow → Option String) :
    ∀ (l : List TableCfg) (db db2 : LocalDB),
    downloadLoop remote wf l db = .ok db2 →
    (l.map TableCfg.name).Nodup →
    ∀ cfg ∈ l, ∃ rows,
      fetchActive remote cfg.name = .ok rows ∧
      tableOutcome wf cfg (db cfg.name) rows = .ok (db2 cfg.name) := by
  intro l
  induction l with
  | nil =>
    intro db db2 _ _ cfg hc
    cases hc
  | cons c rest ih =>
    intro db db2 h hnodup cfg hc
    have hnodup2 := List.nodup_cons.mp (by simpa using hnodup : (c.name :: rest.map TableCfg.name).Nodup)
    revert h
    unfold downloadLoop
    cases hf : fetchActive remote c.name with
    | error e =>
      intro h
      cases h
    | ok rows =>
      intro h
      dsimp only at h
      revert h
      cases ha : applyTable wf db c rows with
      | error e =>
        intro h
        cases h
      | ok dbm =>
        intro h
        dsimp only at h
        rcases List.mem_cons.mp hc with rfl | hrest
        · refine ⟨rows, hf, ?_⟩
          have hrest_ne : ∀ c2 ∈ rest, c2.name ≠ cfg.name := by
            intro c2 hc2 he
            exact hnodup2.1 (he ▸ List.mem_map_of_mem TableCfg.name hc2)
          have hsame : db2 cfg.name = dbm cfg.name :=
            downloadLoop_ok_untouched remote wf rest dbm db2 cfg.name h hrest_ne
          rw [hsame]
          exact applyTable_ok_same wf db dbm cfg rows ha
        · have hname : cfg.name ≠ c.name := by
            intro he
            exact hnodup2.1 (he ▸ List.mem_map_of_mem TableCfg.name hrest)
          have hpres : dbm cfg.name = db cfg.name :=
            applyTable_ok_other wf db dbm c rows cfg.name ha hname
          have hres := ih dbm db2 h hnodup2.2 cfg hrest
          rw [hpres] at hres
          exact hres

theorem downloadLoop_fetch_fail (remote : String → Except String (List DRow))
    (wf : String → DRow → Option String) :
    ∀ (l : List TableCfg) (db : LocalDB) (cfg : TableCfg) (msg : String),
    cfg ∈ l → remote cfg.name = .error msg →
    ∃ e, downloadLoop remote wf l db = .error e := by
  intro l
  induction l with
  | nil =>
    intro db cfg msg hc _
    cases hc
  | cons c rest ih =>
    intro db cfg msg hc hr
    unfold downloadLoop
    cases hf : fetchActive remote c.name with
    | error e => exact ⟨e, rfl⟩
    | ok rows =>
      dsimp only
      rcases List.mem_cons.mp hc with rfl | hrest
      · exfalso
        unfold fetchActive at hf
        rw [hr] at hf
        cases hf
      · cases ha : applyTable wf db c rows with
        | error e => exact ⟨e, rfl⟩
        | ok dbm =>
          dsimp only
          exact ih dbm cfg msg hrest hr

theorem insertAll_ok (wf : String → DRow → Option String) (t : String) :
    ∀ (rows acc out : List DRow), insertAll wf t rows acc = .ok out →
    out = rows.foldl insertOrReplace acc := by
  intro rows
  induction rows with
  | nil =>
    intro acc out h
    cases h
    rfl
  | cons r rs ih =>
    intro acc out h
    revert h
    unfold insertAll
    cases hw : wf t r with
    | some msg =>
      intro h
      cases h
    | none =>
      intro h
      exact ih (insertOrReplace acc r) out h

theorem foldl_insertOrReplace_fresh :
    ∀ (rows acc : List DRow),
    (∀ r ∈ rows, ∀ x ∈ acc, x.key ≠ r.key) →
    (rows.map DRow.key).Nodup →
    rows.foldl insertOrReplace acc = acc ++ rows := by
  intro rows
  induction rows with
  | nil =>
    intro acc _ _
    simp
  | cons r rs ih =>
    intro acc hfresh hnodup
    have hkeep : insertOrReplace acc r = acc ++ [r] := by
      unfold insertOrReplace
      have : acc.filter (fun x => !(x.key = r.key)) = acc := by
        rw [List.filter_eq_self]
        intro x hx
        simpa using hfresh r (List.mem_cons_self r rs) x hx
      rw [this]
    have hnodup2 := List.nodup_cons.mp (by simpa using hnodup :
      (r.key :: rs.map DRow.key).Nodup)
    have hfresh2 : ∀ r2 ∈ rs, ∀ x ∈ acc ++ [r], x.key ≠ r2.key := by
      intro r2 hr2 x hx
      rcases List.mem_append.mp hx with hx | hx
      · exact hfresh r2 (List.mem_cons_of_mem r hr2) x hx
      · rcases List.mem_singleton.mp hx with rfl
        intro he
        exact hnodup2.1 (he ▸ List.mem_map_of_mem DRow.key hr2)
    calc (r :: rs).foldl insertOrReplace acc
        = rs.foldl insertOrReplace (insertOrReplace acc r) := rfl
      _ = rs.foldl insertOrReplace (acc ++ [r]) := by rw [hkeep]
      _ = (acc ++ [r]) ++ rs := ih (acc ++ [r]) hfresh2 hnodup2.2
      _ = acc ++ (r :: rs) := by simp

/-- Claim C3: if the remote fetch for any table of the dependency-ordered
list fails during downloadUpdates, the operation raises; and whenever
downloadUpdates returns by raising (a failed fetch or a failed local
write for any table, at any position), every table's local rows equal
their state before the download began: the writes already performed for
the earlier tables inside the global transaction are rolled back. -/
theorem c3_download_rollback (remote : String → Except String (List DRow))
    (wf : String → DRow → Option String) (db : LocalDB) :
    (∀ cfg ∈ dlTables, ∀ msg, remote cfg.name = .error msg →
      (downloadUpdates remote wf db).2.isSome = true) ∧
    (∀ err, (downloadUpdates remote wf db).2 = some err →
      ∀ t, (downloadUpdates remote wf db).1 t = db t) := by
  constructor
  · intro cfg hc msg hr
    obtain ⟨e, he⟩ := downloadLoop_fetch_fail remote wf dlTables db cfg msg hc hr
    unfold downloadUpdates
    rw [he]
    rfl
  · intro err h2 t
    unfold downloadUpdates at h2 ⊢
    cases hl : downloadLoop remote wf dlTables db with
    | ok db2 =>
      rw [hl] at h2
      dsimp only at h2
      cases h2
    | error e => rfl

/-- No injected local-write failures: every INSERT succeeds. -/
def noWriteFail : String → DRow → Option String := fun _ _ => none

/-- Remote state of the claim C3 witness: users has one active row,
the fetch for companies (table 2 of the dependency order) fails, the
remaining tables are empty. -/
def remoteC3 : String → Except String (List DRow) := fun t =>
  if t = "users" then .ok [⟨"1", none, "alice"⟩]
  else if t = "companies" then .error "network error"
  else .ok []

/-- Local state of the claim C3 witness: users holds one stale row that
the users pass of the download would have replaced. -/
def dbC3 : LocalDB := fun t =>
  if t = "users" then [⟨"9", none, "stale"⟩] else []

/-- Witness for claim C3: with the companies fetch failing, the download
raises and the users table — already rewritten inside the transaction —
is back to its pre-download row. -/
theorem c3_download_rollback_witness :
    (downloadUpdates remoteC3 noWriteFail dbC3).2.isSome = true ∧
    (downloadUpdates remoteC3 noWriteFail dbC3).1 "users" = [⟨"9", none, "stale"⟩] := by
  have h := c3_download_rollback remoteC3 noWriteFail dbC3
  refine ⟨h.1 ⟨"companies", true⟩ (by decide) "network error" rfl, ?_⟩
  have h2 : (downloadUpdates remoteC3 noWriteFail dbC3).1 "users" = dbC3 "users" :=
    h.2 "network error" rfl "users"
  rw [h2]
  rfl

/-- Local state of the claim C2 counterexample: one active local user. -/
def dbC2 : LocalDB := fun t =>
  if t = "users" then [⟨"1", none, "alice"⟩] else []

/-- Remote state of the claim C2 counterexample: every table's active
set is empty. -/
def remoteC2 : String → Except String (List DRow) := fun _ => .ok []

/-- Counterexample for claim C2: downloadUpdates succeeds against a
remote whose users active set is empty, yet the local users table (a
"replace" table) still holds its old row and so is not equal to the
empty remote active set — the loop skips a table whose fetch returns no
rows before the clearFirst delete runs. -/
theorem c2_download_replace_cex :
    (downloadUpdates remoteC2 noWriteFail dbC2).2 = none ∧
    (fetchActive remoteC2 "users" = .ok ([] : List DRow)) ∧
    (downloadUpdates remoteC2 noWriteFail dbC2).1 "users" = [⟨"1", none, "alice"⟩] := by
  refine ⟨rfl, rfl, rfl⟩

/-- Claim C2 as amended: after a successful downloadUpdates, each
"replace" table (clearFirst = true: users, companies, roles, forms)
whose fetched remote active set is nonempty equals exactly that active
set (given distinct primary keys, as primary keys are); but a table
whose remote active set is empty is skipped entirely and keeps its
pre-download local rows. -/
theorem c2_download_replace_amended (remote : String → Except String (List DRow))
    (wf : String → DRow → Option String) (db db2 : LocalDB)
    (h : downloadUpdates remote wf db = (db2, none))
    (cfg : TableCfg) (hc : cfg ∈ dlTables) (hclear : cfg.clearFirst = true)
    (rows : List DRow) (hr : fetchActive remote cfg.name = .ok rows) :
    (rows = [] → db2 cfg.name = db cfg.name) ∧
    (rows ≠ [] → (rows.map DRow.key).Nodup → db2 cfg.name = rows) := by
  have hloop : downloadLoop remote wf dlTables db = .ok db2 := by
    revert h
    unfold downloadUpdates
    cases hl : downloadLoop remote wf dlTables db with
    | ok dbx =>
      intro h
      cases h
      rfl
    | error e =>
      intro h
      cases h
  have hnodup : (dlTables.map TableCfg.name).Nodup := by decide
  obtain ⟨rows2, hr2, hout⟩ :=
    downloadLoop_ok_table remote wf dlTables db db2 hloop hnodup cfg hc
  have hrows : rows2 = rows := by
    rw [hr] at hr2
    cases hr2
    rfl
  rw [hrows] at hout
  constructor
  · intro hnil
    rw [hnil] at hout
    unfold tableOutcome at hout
    simp only [List.isEmpty_nil, if_true] at hout
    simp only [Except.ok.injEq] at hout
    exact hout.symm
  · intro hne hkeys
    unfold tableOutcome at hout
    cases rows with
    | nil => cases hne rfl
    | cons r rs =>
      have hout2 : insertAll wf cfg.name (r :: rs) [] = .ok (db2 cfg.name) := by
        rw [hclear] at hout
        simpa using hout
      have hfold := insertAll_ok wf cfg.name (r :: rs) [] (db2 cfg.name) hout2
      rw [hfold, foldl_insertOrReplace_fresh (r :: rs) [] (by simp) hkeys]
      simp

/-- Remote state of the claim C2 amended witness: users has one active
and one soft-deleted row, all other tables are empty. -/
def remoteC2W : String → Except String (List DRow) := fun t =>
  if t = "users" then .ok [⟨"1", none, "alice"⟩, ⟨"2", some "2025-01-01", "gone"⟩]
  else .ok []

/-- Witness for the amended claim C2: with a nonempty remote users
active set, a successful download replaces the stale local users table
by exactly the active set, and leaves an empty-remote replace table
(companies) at its prior local value. -/
theorem c2_download_replace_amended_witness :
    (downloadUpdates remoteC2W noWriteFail dbC2).1 "users" = [⟨"1", none, "alice"⟩] := by
  have h := c2_download_replace_amended remoteC2W noWriteFail dbC2
    ((downloadUpdates remoteC2W noWriteFail dbC2).1)
    (Prod.ext rfl rfl) ⟨"users", true⟩ (by decide) rfl
    [⟨"1", none, "alice"⟩] rfl
  exact h.2 (by decide) (by decide)

/-- A quarantined queue row for the claim C6 witness: it has failed
exactly 3 upload attempts. -/
def quarantinedEntry : QueueEntry :=
  { id := 7, table_name := "visits", record_id := "4", operation := .upd,
    data := "d", synced := false, retry_count := 3, error := some "boom",
    created_at := 100 }

/-- A remote that accepts every request. -/
def remoteOk : RemoteReq → Except String Unit := fun _ => .ok ()

/-- Witness for claim C6 at a concrete quarantined row: it is excluded
from the drain, purged by the run whose clock is past the 7-day
threshold, and retained by the run whose clock is not. -/
theorem c6_retry_cap_quarantine_witness :
    (quarantinedEntry ∉ drainPending [quarantinedEntry]) ∧
    (quarantinedEntry ∉ (processSyncQueue remoteOk (100 + sevenDays + 1) [quarantinedEntry]).2) ∧
    (quarantinedEntry ∈ (processSyncQueue remoteOk 100 [quarantinedEntry]).2) := by
  have h1 := c6_retry_cap_quarantine quarantinedEntry [quarantinedEntry] remoteOk
    (100 + sevenDays + 1) (by decide) (by decide)
  have h2 := c6_retry_cap_quarantine quarantinedEntry [quarantinedEntry] remoteOk
    100 (by decide) (by decide)
  exact ⟨h1.1, h1.2.1 (by decide), h2.2.2 (by decide)⟩

/-! ## Domain repositories — typed local store

Row types follow the local schema created by initDatabase
(src/utils/database/core.ts).  Timestamps are instants; REAL
coordinates are carried opaquely as optional integers (no arithmetic is
ever performed on them by the modelled operations). -/

/-- users row. -/
structure UserRow where
  id : Nat
  username : String
  password : String
  is_admin : Bool
  active : Bool
  deleted_at : Option Nat
deriving DecidableEq, Repr

/-- roles row. -/
structure RoleRow where
  id : Nat
  name : String
  deleted_at : Option Nat
deriving DecidableEq, Repr

/-- companies row. -/
structure CompanyRow where
  id : Nat
  name : String
  description : Option String
  deleted_at : Option Nat
deriving DecidableEq, Repr

/-- user_roles junction row. -/
structure UserRole where
  user_id : Nat
  role_id : Nat
  deleted_at : Option Nat
deriving DecidableEq, Repr

/-- user_companies junction row. -/
structure UserCompany where
  user_id : Nat
  company_id : Nat
  deleted_at : Option Nat
deriving DecidableEq, Repr

/-- visits row (the columns the modelled operations touch). -/
structure VisitRow where
  id : Nat
  user_id : Nat
  company_id : Nat
  role_id : Nat
  start_time : Nat
  end_time : Option Nat
  latitude : Option Int
  longitude : Option Int
  no_gps_signal : Bool
  deleted_at : Option Nat
deriving DecidableEq, Repr

/-- forms row. -/
structure FormRow where
  id : Nat
  name : String
  description : String
  deleted_at : Option Nat
deriving DecidableEq, Repr

/-- form_fields row (type renamed ftype, a keyword). -/
structure FormFieldRow where
  id : Nat
  form_id : Nat
  name : String
  label : String
  ftype : String
  required : Bool
  sort_order : Nat
  deleted_at : Option Nat
deriving DecidableEq, Repr

/-- form_companies junction row. -/
structure FormCompany where
  form_id : Nat
  company_id : Nat
  deleted_at : Option Nat
deriving DecidableEq, Repr

/-- form_responses row (the columns the modelled operations touch). -/
structure FormResponseRow where
  id : Nat
  form_id : Nat
  visit_id : Nat
  user_id : Nat
  created_at : Nat
  deleted_at : Option Nat
deriving DecidableEq, Repr

/-- form_field_responses row. -/
structure FFRRow where
  id : Nat
  form_response_id : Nat
  field_id : Nat
  value : String
  deleted_at : Option Nat
deriving DecidableEq, Repr

/-- The typed local store, with the per-table autoincrement counters. -/
structure Store where
  users : List UserRow
  roles : List RoleRow
  companies : List CompanyRow
  user_roles : List UserRole
  user_companies : List UserCompany
  visits : List VisitRow
  forms : List FormRow
  form_fields : List FormFieldRow
  form_companies : List FormCompany
  form_responses : List FormResponseRow
  form_field_responses : List FFRRow
  sync_queue : List QueueEntry
  next_form_id : Nat
  next_field_id : Nat
  next_visit_id : Nat
  next_queue_id : Nat
deriving DecidableEq, Repr

/-- getRoles (roles.ts lines 7-12): SELECT * FROM roles WHERE
deleted_at IS NULL ORDER BY name. -/
def getRoles (s : Store) : List RoleRow :=
  sortByLe (fun a b => decide (a.name ≤ b.name))
    (s.roles.filter (fun r => r.deleted_at = none))

/-- getCompanies (companies.ts lines 7-12): SELECT * FROM companies
WHERE deleted_at IS NULL ORDER BY name. -/
def getCompanies (s : Store) : List CompanyRow :=
  sortByLe (fun a b => decide (a.name ≤ b.name))
    (s.companies.filter (fun c => c.deleted_at = none))

/-- The role (id, name) pairs a user's junction rows join to, as decoded
from the GROUP_CONCAT of the getUsers/getUser query: the LEFT JOINs on
user_roles and roles carry no deleted_at filter on either table. -/
def rolesOfUser (s : Store) (uid : Nat) : List (Nat × String) :=
  (s.user_roles.filter (fun ur => ur.user_id = uid)).flatMap
    (fun ur => (s.roles.filter (fun r => r.id = ur.role_id)).map (fun r => (r.id, r.name)))

/-- The company (id, name, COALESCE(description, empty)) triples a
user's junction rows join to; again no deleted_at filter on the joined
tables. -/
def companiesOfUser (s : Store) (uid : Nat) : List (Nat × String × String) :=
  (s.user_companies.filter (fun uc => uc.user_id = uid)).flatMap
    (fun uc => (s.companies.filter (fun c => c.id = uc.company_id)).map
      (fun c => (c.id, c.name, c.description.getD "")))

/-- The decoded user record returned by getUsers and getUser. -/
structure UserOut where
  id : Nat
  username : String
  password : String
  isAdmin : Bool
  active : Bool
  roles : List (Nat × String)
  companies : List (Nat × String × String)
deriving DecidableEq, Repr

/-- getUsers (users.ts lines 9-60): users filtered on their own
deleted_at, ordered by username, with roles/companies joined through
the junctions without any deleted_at filter on the joined rows. -/
def getUsers (s : Store) : List UserOut :=
  (sortByLe (fun a b => decide (a.username ≤ b.username))
      (s.users.filter (fun u => u.deleted_at = none))).map
    (fun u => { id := u.id, username := u.username, password := u.password,
                isAdmin := u.is_admin, active := u.active,
                roles := rolesOfUser s u.id, companies := companiesOfUser s u.id })

/-- getUser (users.ts lines 63-137): credential match filtered on the
user's own deleted_at; when the matched user is an admin the result
carries getRoles and getCompanies wholesale (users.ts lines 92-105),
ignoring the junction tables; otherwise the joined junction decode. -/
def getUser (username password : String) (s : Store) : Option UserOut :=
  match s.users.filter
      (fun u => u.username = username && u.password = password && u.deleted_at = none) with
  | [] => none
  | u :: _ =>
    if u.is_admin then
      some { id := u.id, username := u.username, password := u.password,
             isAdmin := true, active := u.active,
             roles := (getRoles s).map (fun r => (r.id, r.name)),
             companies := (getCompanies s).map (fun c => (c.id, c.name, c.description.getD "")) }
    else
      some { id := u.id, username := u.username, password := u.password,
             isAdmin := u.is_admin, active := u.active,
             roles := rolesOfUser s u.id, companies := companiesOfUser s u.id }

/-- A decoded form field as reconstructed from the GROUP_CONCAT of
getForms (forms.ts lines 141-154). -/
structure FieldOut where
  id : Nat
  form_id : Nat
  name : String
  label : String
  ftype : String
  required : Bool
  sort_order : Nat
deriving DecidableEq, Repr

/-- A decoded form as returned by getForms. -/
structure FormOut where
  id : Nat
  name : String
  description : String
  fields : List FieldOut
deriving DecidableEq, Repr

/-- Projection of a form_fields row into the decoded output. -/
def projField (ff : FormFieldRow) : FieldOut :=
  { id := ff.id, form_id := ff.form_id, name := ff.name, label := ff.label,
    ftype := ff.ftype, required := ff.required, sort_order := ff.sort_order }

/-- The fields joined to one form: LEFT JOIN form_fields ff ON
f.id = ff.form_id, with no ff.deleted_at filter (forms.ts line 114). -/
def fieldsOfForm (s : Store) (fid : Nat) : List FieldOut :=
  (s.form_fields.filter (fun ff => ff.form_id = fid)).map projField

/-- getForms (forms.ts lines 99-156): forms filtered on f.deleted_at,
and for a non-null userId additionally joined through form_companies
and user_companies — neither junction filtered on its own deleted_at —
ordered by name; each form carries its joined fields. -/
def getForms (userId : Option Nat) (s : Store) : List FormOut :=
  let base := s.forms.filter (fun f => f.deleted_at = none)
  let visible :=
    match userId with
    | none => base
    | some uid => base.filter (fun f =>
        s.form_companies.any (fun fc => fc.form_id = f.id &&
          s.user_companies.any (fun uc => uc.company_id = fc.company_id && uc.user_id = uid)))
  (sortByLe (fun a b => decide (a.name ≤ b.name)) visible).map
    (fun f => { id := f.id, name := f.name, description := f.description,
                fields := fieldsOfForm s f.id })

/-- getActiveVisit (visits.ts lines 7-17): the first visits row with
the given user, null end_time and null deleted_at. -/
def getActiveVisit (uid : Nat) (s : Store) : Option VisitRow :=
  (s.visits.filter (fun v => v.user_id = uid && v.end_time = none && v.deleted_at = none)).head?

/-- getFormById (forms.ts lines 158-161): delegates to getForms() and
picks the form with the requested id. -/
def getFormById (fid : Nat) (s : Store) : Option FormOut :=
  (getForms none s).find? (fun f => f.id = fid)

/-- A JS-truthy optional filter clause: the query appends AND col = ?
only when the argument is set. -/
def optFilter (o : Option Nat) (x : Nat) : Bool :=
  match o with
  | none => true
  | some i => x = i

/-- The (field_id, label, value) triples of one form response, decoded
from the GROUP_CONCAT of getFormResponses: the INNER JOINs on
form_field_responses and form_fields match on ids only, with no
deleted_at filter on either joined table (forms.ts lines 239-240). -/
def responsesOf (s : Store) (frid : Nat) : List (Nat × String × String) :=
  (s.form_field_responses.filter (fun x => x.form_response_id = frid)).flatMap (fun x =>
    (s.form_fields.filter (fun ff => ff.id = x.field_id)).map (fun ff => (x.field_id, ff.label, x.value)))

/-- A decoded row of getFormResponses. -/
structure ResponseOut where
  id : Nat
  form_id : Nat
  formName : String
  visit_id : Nat
  user_id : Nat
  username : String
  created_at : Nat
  responses : List (Nat × String × String)
deriving DecidableEq, Repr

/-- getFormResponses (forms.ts lines 209-285): form_responses filtered
on fr.deleted_at and the optional form/visit/user clauses, ordered by
created_at descending, INNER JOINed to forms, users,
form_field_responses and form_fields — a response row appears only when
all four joins match, and none of the joined tables is filtered on its
own deleted_at. -/
def getFormResponses (formId visitId userId : Option Nat) (s : Store) : List ResponseOut :=
  (sortByLe (fun a b => decide (b.created_at ≤ a.created_at))
    (s.form_responses.filter (fun fr =>
      fr.deleted_at = none && optFilter formId fr.form_id &&
        optFilter visitId fr.visit_id && optFilter userId fr.user_id))).flatMap
    (fun fr =>
      (s.forms.filter (fun f => f.id = fr.form_id)).flatMap (fun f =>
        (s.users.filter (fun u => u.id = fr.user_id)).flatMap (fun u =>
          if (responsesOf s fr.id).isEmpty then []
          else [{ id := fr.id, form_id := fr.form_id, formName := f.name,
                  visit_id := fr.visit_id, user_id := fr.user_id, username := u.username,
                  created_at := fr.created_at, responses := responsesOf s fr.id }])))

/-- One row of the VisitDetails CTE of getVisitReports (visits.ts lines
41-66): completed visits in the date window, matching the optional
company/user filters, non-deleted, joined to their user and company;
the duration is the start-to-end difference in seconds. -/
structure VisitDetail where
  visit_id : Nat
  user_id : Nat
  username : String
  company_id : Nat
  company_name : String
  start_time : Nat
  end_time : Nat
  duration : Int
deriving DecidableEq, Repr

/-- The VisitDetails CTE. -/
def visitDetails (companyId : Option Nat) (startDate endDate : Nat) (userId : Option Nat)
    (s : Store) : List VisitDetail :=
  (s.visits.filter (fun v =>
    startDate ≤ v.start_time && v.start_time ≤ endDate &&
      optFilter companyId v.company_id && optFilter userId v.user_id &&
      !(v.end_time = none) && v.deleted_at = none)).flatMap (fun v =>
    (s.users.filter (fun u => u.id = v.user_id)).flatMap (fun u =>
      (s.companies.filter (fun c => c.id = v.company_id)).map (fun c =>
        { visit_id := v.id, user_id := v.user_id, username := u.username,
          company_id := v.company_id, company_name := c.name,
          start_time := v.start_time, end_time := v.end_time.getD 0,
          duration := ((v.end_time.getD 0 : Int) - (v.start_time : Int)) })))

/-- First-occurrence key deduplication, modelling the grouping keys of
a GROUP BY. -/
def keyDedup {α : Type} [DecidableEq α] : List α → List α
  | [] => []
  | k :: ks => k :: (keyDedup ks).filter (fun k2 => !(k2 = k))

/-- A decoded row of getVisitReports: one group per (user, company). -/
structure ReportOut where
  user_id : Nat
  username : String
  company_id : Nat
  company_name : String
  total_duration : Int
  visits : List VisitDetail
deriving DecidableEq, Repr

/-- getVisitReports (visits.ts lines 20-116): the VisitDetails CTE
grouped by (user_id, company_id) with summed duration and the decoded
per-visit list, ordered by username then company name. -/
def getVisitReports (companyId : Option Nat) (startDate endDate : Nat) (userId : Option Nat)
    (s : Store) : List ReportOut :=
  sortByLe (fun a b =>
      decide (a.username < b.username) ||
        (decide (a.username = b.username) && decide (a.company_name ≤ b.company_name)))
    ((keyDedup ((visitDetails companyId startDate endDate userId s).map
        (fun d => (d.user_id, d.company_id)))).filterMap (fun k =>
      match (visitDetails companyId startDate endDate userId s).filter
          (fun d => (d.user_id, d.company_id) = k) with
      | [] => none
      | d :: tl =>
        some { user_id := d.user_id, username := d.username, company_id := d.company_id,
               company_name := d.company_name,
               total_duration := ((d :: tl).map VisitDetail.duration).sum,
               visits := d :: tl }))

/-- The error message deleteUser raises on the business-rule check. -/
def userDeleteError : String :=
  "Cannot delete user with associated visits or form responses. Consider deactivating the user instead."

/-- deleteUser (users.ts lines 314-358): inside the transaction it first
counts non-deleted visits and form_responses referencing the user and
throws before any mutation when either count is positive (the catch
rolls the transaction back, leaving the store untouched and the outbox
enqueue — which only runs after COMMIT — never reached); otherwise it
hard-deletes the junction rows, soft-deletes the user, commits, and
enqueues one DELETE outbox row. -/
def deleteUser (id : Nat) (now : Nat) (s : Store) : Store × Option String :=
  if 0 < (s.visits.filter (fun v => v.user_id = id && v.deleted_at = none)).length ∨
     0 < (s.form_responses.filter (fun fr => fr.user_id = id && fr.deleted_at = none)).length then
    (s, some userDeleteError)
  else
    let s1 := { s with
      user_roles := s.user_roles.filter (fun ur => !(ur.user_id = id)),
      user_companies := s.user_companies.filter (fun uc => !(uc.user_id = id)),
      users := s.users.map (fun (u : UserRow) =>
        if u.id = id then { u with deleted_at := some now, active := false } else u) }
    ({ s1 with
        sync_queue := s1.sync_queue ++
          [({ id := s1.next_queue_id, table_name := "users", record_id := toString id,
              operation := .del, data := "deleted_at,active:false", synced := false,
              retry_count := 0, error := none, created_at := now } : QueueEntry)],
        next_queue_id := s1.next_queue_id + 1 }, none)

/-- A field specification passed to createForm. -/
structure FieldSpec where
  name : String
  label : String
  ftype : String
  required : Bool
  sort_order : Nat
deriving DecidableEq, Repr

/-- createForm (forms.ts lines 46-97): one transaction inserts the forms
row, one form_fields row per field and one form_companies row per
company id, then COMMITs; only after the commit does it enqueue a single
outbox INSERT, for the forms row alone.  enqueueOk injects the
possibility that the sync_queue INSERT itself fails: the catch then runs
after the commit, so the local mutations stay committed and no outbox
row exists. -/
def createForm (name description : String) (fields : List FieldSpec)
    (companyIds : List Nat) (now : Nat) (enqueueOk : Bool) (s : Store) :
    Store × Option Nat :=
  let fid := s.next_form_id
  let s1 := { s with
    forms := s.forms ++
      [({ id := fid, name := name, description := description, deleted_at := none } : FormRow)],
    next_form_id := fid + 1 }
  let s2 := { s1 with
    form_fields := s1.form_fields ++ fields.enum.map (fun (p : Nat × FieldSpec) =>
      ({ id := s.next_field_id + p.1, form_id := fid, name := p.2.name, label := p.2.label,
         ftype := p.2.ftype, required := p.2.required, sort_order := p.2.sort_order,
         deleted_at := none } : FormFieldRow)),
    next_field_id := s.next_field_id + fields.length }
  let s3 := { s2 with
    form_companies := s2.form_companies ++ companyIds.map (fun c =>
      ({ form_id := fid, company_id := c, deleted_at := none } : FormCompany)) }
  if enqueueOk then
    ({ s3 with
        sync_queue := s3.sync_queue ++
          [({ id := s3.next_queue_id, table_name := "forms", record_id := toString fid,
              operation := .ins, data := "name,description,created_at,updated_at",
              synced := false, retry_count := 0, error := none, created_at := now } : QueueEntry)],
        next_queue_id := s3.next_queue_id + 1 }, some fid)
  else
    (s3, none)

/-- startVisit (visits.ts lines 119-157): one transaction inserts the
visits row and COMMITs; the single outbox INSERT for that row follows
the commit (enqueueOk as in createForm). -/
def startVisit (uid cid rid : Nat) (lat lng : Option Int) (noGps : Bool)
    (now : Nat) (enqueueOk : Bool) (s : Store) : Store × Option Nat :=
  let vid := s.next_visit_id
  let s1 := { s with
    visits := s.visits ++
      [({ id := vid, user_id := uid, company_id := cid, role_id := rid,
          start_time := now, end_time := none, latitude := lat, longitude := lng,
          no_gps_signal := noGps, deleted_at := none } : VisitRow)],
    next_visit_id := vid + 1 }
  if enqueueOk then
    ({ s1 with
        sync_queue := s1.sync_queue ++
          [({ id := s1.next_queue_id, table_name := "visits", record_id := toString vid,
              operation := .ins, data := "user_id,company_id,role_id,start_time,location",
              synced := false, retry_count := 0, error := none, created_at := now } : QueueEntry)],
        next_queue_id := s1.next_queue_id + 1 }, some vid)
  else
    (s1, none)

/-- The empty local store. -/
def emptyStore : Store :=
  { users := [], roles := [], companies := [], user_roles := [], user_companies := [],
    visits := [], forms := [], form_fields := [], form_companies := [], form_responses := [],
    form_field_responses := [], sync_queue := [], next_form_id := 1, next_field_id := 1,
    next_visit_id := 1, next_queue_id := 1 }

/-- Counterexample for claim C1: one successful createForm with one
field and one company commits three syncable row mutations (a forms
insert, a form_fields insert, a form_companies insert) but creates
exactly one sync_queue row — the counts differ even with no failure at
all, so the claimed one-outbox-row-per-mutation equality fails. -/
theorem c1_outbox_per_mutation_cex :
    ((createForm "F" "d" [⟨"n", "l", "text", false, 0⟩] [7] 0 true emptyStore).1.forms.length
      + (createForm "F" "d" [⟨"n", "l", "text", false, 0⟩] [7] 0 true emptyStore).1.form_fields.length
      + (createForm "F" "d" [⟨"n", "l", "text", false, 0⟩] [7] 0 true emptyStore).1.form_companies.length
      = 3) ∧
    (createForm "F" "d" [⟨"n", "l", "text", false, 0⟩] [7] 0 true emptyStore).1.sync_queue.length = 1 := by
  decide

/-- Claim C1 as amended, scoped to the two operations the claim cites:
createForm commits 1 + |fields| + |companyIds| syncable row mutations
yet enqueues exactly one sync_queue row — for the forms insert only —
and does so after its transaction COMMITs rather than inside it,
enqueuing none when the sync-queue insert itself fails while the
mutations stay committed; startVisit commits its single visits insert
and enqueues its single row after COMMIT in the same way.  The original
one-row-per-mutation, commit-or-roll-back-together invariant fails;
no statement is made here for the other repository operations, whose
enqueue patterns differ from one another. -/
theorem c1_outbox_per_operation_amended
    (nm ds : String) (fields : List FieldSpec) (cids : List Nat)
    (now : Nat) (enqueueOk : Bool) (s : Store)
    (uid cid rid : Nat) (lat lng : Option Int) (noGps : Bool) :
    ((createForm nm ds fields cids now enqueueOk s).1.forms.length = s.forms.length + 1) ∧
    ((createForm nm ds fields cids now enqueueOk s).1.form_fields.length
      = s.form_fields.length + fields.length) ∧
    ((createForm nm ds fields cids now enqueueOk s).1.form_companies.length
      = s.form_companies.length + cids.length) ∧
    ((createForm nm ds fields cids now enqueueOk s).1.sync_queue.length
      = s.sync_queue.length + (if enqueueOk then 1 else 0)) ∧
    ((startVisit uid cid rid lat lng noGps now enqueueOk s).1.visits.length
      = s.visits.length + 1) ∧
    ((startVisit uid cid rid lat lng noGps now enqueueOk s).1.sync_queue.length
      = s.sync_queue.length + (if enqueueOk then 1 else 0)) := by
  cases enqueueOk <;>
    simp [createForm, startVisit, List.length_append, List.length_map, List.enum_length]

/-- Claim C9: deleteUser raises its business-rule error before any
mutation whenever the user is referenced by a non-deleted visit or a
non-deleted form response: the result is the untouched store (the
transaction rolls back having written nothing) paired with the error,
so no users, user_roles or user_companies row changes and no sync_queue
entry is created. -/
theorem c9_delete_user_blocked (s : Store) (id now : Nat)
    (h : (∃ v, v ∈ s.visits ∧ v.user_id = id ∧ v.deleted_at = none) ∨
         (∃ fr, fr ∈ s.form_responses ∧ fr.user_id = id ∧ fr.deleted_at = none)) :
    deleteUser id now s = (s, some userDeleteError) := by
  unfold deleteUser
  have hcond :
      0 < (s.visits.filter (fun v => v.user_id = id && v.deleted_at = none)).length ∨
      0 < (s.form_responses.filter (fun fr => fr.user_id = id && fr.deleted_at = none)).length := by
    rcases h with ⟨v, hv, h1, h2⟩ | ⟨fr, hfr, h1, h2⟩
    · exact Or.inl (List.length_pos.mpr
        (List.ne_nil_of_mem (List.mem_filter.mpr ⟨hv, by simp [h1, h2]⟩)))
    · exact Or.inr (List.length_pos.mpr
        (List.ne_nil_of_mem (List.mem_filter.mpr ⟨hfr, by simp [h1, h2]⟩)))
  rw [if_pos hcond]

/-- A store with a user that has one non-deleted visit, for the claim
C9 witness. -/
def c9store : Store := { emptyStore with
  users := [⟨1, "bob", "pw", false, true, none⟩],
  user_roles := [⟨1, 1, none⟩],
  visits := [⟨1, 1, 1, 1, 0, none, none, none, false, none⟩] }

/-- Witness for claim C9: deleting user 1, who has an open visit,
returns the untouched store and the business-rule error. -/
theorem c9_delete_user_blocked_witness :
    deleteUser 1 50 c9store = (c9store, some userDeleteError) :=
  c9_delete_user_blocked c9store 1 50
    (Or.inl ⟨⟨1, 1, 1, 1, 0, none, none, none, false, none⟩, by decide, rfl, rfl⟩)

/-- Claim C10: when the credential match of getUser lands on a stored
admin user, the returned roles are exactly the non-deleted roles of the
store and the returned companies exactly the non-deleted companies —
with their full-set membership spelled out in both directions — and the
result does not depend on the user_roles / user_companies junction
tables at all. -/
theorem c10_admin_gets_all (s : Store) (un pw : String) (u : UserRow)
    (hu : (s.users.filter
      (fun x => x.username = un && x.password = pw && x.deleted_at = none)).head? = some u)
    (hadm : u.is_admin = true) :
    ∃ res, getUser un pw s = some res ∧
      res.roles = (getRoles s).map (fun r => (r.id, r.name)) ∧
      res.companies = (getCompanies s).map (fun c => (c.id, c.name, c.description.getD "")) ∧
      (∀ r, r ∈ s.roles → r.deleted_at = none → (r.id, r.name) ∈ res.roles) ∧
      (∀ p, p ∈ res.roles → ∃ r, r ∈ s.roles ∧ r.deleted_at = none ∧ p = (r.id, r.name)) ∧
      (∀ c, c ∈ s.companies → c.deleted_at = none →
        (c.id, c.name, c.description.getD "") ∈ res.companies) ∧
      (∀ p, p ∈ res.companies → ∃ c, c ∈ s.companies ∧ c.deleted_at = none ∧
        p = (c.id, c.name, c.description.getD "")) ∧
      (∀ X Y, getUser un pw { s with user_roles := X, user_companies := Y } = getUser un pw s) := by
  cases hfl : s.users.filter
      (fun x => x.username = un && x.password = pw && x.deleted_at = none) with
  | nil =>
    rw [hfl] at hu
    cases hu
  | cons a tl =>
    rw [hfl] at hu
    have ha : a = u := by
      simpa using hu
    subst ha
    refine ⟨{ id := a.id, username := a.username, password := a.password,
              isAdmin := true, active := a.active,
              roles := (getRoles s).map (fun r => (r.id, r.name)),
              companies := (getCompanies s).map
                (fun c => (c.id, c.name, c.description.getD "")) },
      ?_, rfl, rfl, ?_, ?_, ?_, ?_, ?_⟩
    · unfold getUser
      rw [hfl]
      dsimp only
      rw [if_pos hadm]
    · intro r hr hdel
      exact List.mem_map_of_mem _
        ((mem_sortByLe _ r _).mpr (List.mem_filter.mpr ⟨hr, by simp [hdel]⟩))
    · intro p hp
      rcases List.mem_map.mp hp with ⟨r, hr, rfl⟩
      have hsplit := List.mem_filter.mp ((mem_sortByLe _ r _).mp hr)
      exact ⟨r, hsplit.1, by simpa using hsplit.2, rfl⟩
    · intro c hc hdel
      exact List.mem_map_of_mem _
        ((mem_sortByLe _ c _).mpr (List.mem_filter.mpr ⟨hc, by simp [hdel]⟩))
    · intro p hp
      rcases List.mem_map.mp hp with ⟨c, hc, rfl⟩
      have hsplit := List.mem_filter.mp ((mem_sortByLe _ c _).mp hc)
      exact ⟨c, hsplit.1, by simpa using hsplit.2, rfl⟩
    · intro X Y
      unfold getUser
      dsimp only
      rw [hfl]
      dsimp only
      rw [if_pos hadm, if_pos hadm]
      unfold getRoles getCompanies
      dsimp only

/-- A store for the claim C10 witness: one stored admin with empty
junction tables, one active role, one soft-deleted role, one active
company. -/
def c10store : Store := { emptyStore with
  users := [⟨1, "admin", "admin123", true, true, none⟩],
  roles := [⟨1, "usuario", none⟩, ⟨2, "controlador", some 9⟩],
  companies := [⟨3, "AWS", some "cloud", none⟩] }

/-- Witness for claim C10: the stored admin logs in with empty junction
tables and still receives the one non-deleted role and the one company,
while the soft-deleted role is excluded. -/
theorem c10_admin_gets_all_witness :
    ∃ res, getUser "admin" "admin123" c10store = some res ∧
      res.roles = [(1, "usuario")] ∧ res.companies = [(3, "AWS", "cloud")] := by
  obtain ⟨res, hres, hroles, hcomps, -⟩ :=
    c10_admin_gets_all c10store "admin" "admin123"
      ⟨1, "admin", "admin123", true, true, none⟩ (by decide) rfl
  refine ⟨res, hres, ?_, ?_⟩
  · rw [hroles]
    decide
  · rw [hcomps]
    decide

/-- A store whose only form_fields row is soft-deleted, joined to an
active form, for the claim C8 counterexample. -/
def c8store : Store := { emptyStore with
  forms := [⟨1, "F", "d", none⟩],
  form_fields := [⟨10, 1, "n", "l", "text", false, 0, some 5⟩] }

/-- Counterexample for claim C8: the only form_fields row of the store
is soft-deleted (deleted_at = 5), yet getForms returns the form with
that field joined in — the LEFT JOIN on form_fields carries no
deleted_at filter, so soft-deleted joined rows are not excluded. -/
theorem c8_soft_deleted_join_cex :
    c8store.form_fields.map FormFieldRow.deleted_at = [some 5] ∧
    getForms none c8store =
      [{ id := 1, name := "F", description := "d",
         fields := [{ id := 10, form_id := 1, name := "n", label := "l",
                      ftype := "text", required := false, sort_order := 0 }] }] := by
  exact ⟨rfl, rfl⟩

theorem visitDetails_sound (cI : Option Nat) (sD eD : Nat) (uI : Option Nat) (s : Store)
    (d : VisitDetail) (hd : d ∈ visitDetails cI sD eD uI s) :
    ∃ v, v ∈ s.visits ∧ v.id = d.visit_id ∧ v.deleted_at = none ∧ v.end_time ≠ none := by
  unfold visitDetails at hd
  rcases List.mem_flatMap.mp hd with ⟨v, hv, h2⟩
  rcases List.mem_flatMap.mp h2 with ⟨u, hu, h3⟩
  rcases List.mem_map.mp h3 with ⟨c, hc, rfl⟩
  have hsplit := List.mem_filter.mp hv
  have hp := hsplit.2
  simp only [Bool.and_eq_true, Bool.not_eq_true', decide_eq_true_eq,
    decide_eq_false_iff_not] at hp
  exact ⟨v, hsplit.1, rfl, hp.2, hp.1.2⟩

/-- Claim C8 as amended: every read operation of the public data layer
filters its primary table's deleted_at — getForms and getFormById
return only non-deleted forms rows, getUsers and getUser only
non-deleted users rows, getActiveVisit and getVisitReports only
non-deleted visits rows, getFormResponses only non-deleted
form_responses rows, getRoles/getCompanies only non-deleted
roles/companies rows — but rows joined into the results (form_fields
and form_companies in form reads, the roles/companies joined through
the junctions in user reads, the users/companies/form_fields joined
into reports and responses) carry no deleted_at filter of their own,
so soft-deleted joined records can appear inside results. -/
theorem c8_primary_filter_amended (uid : Option Nat) (s : Store) :
    (∀ f, f ∈ getForms uid s →
      ∃ fr, fr ∈ s.forms ∧ fr.id = f.id ∧ fr.name = f.name ∧ fr.deleted_at = none) ∧
    (∀ u, u ∈ getUsers s →
      ∃ ur, ur ∈ s.users ∧ ur.id = u.id ∧ ur.username = u.username ∧ ur.deleted_at = none) ∧
    (∀ n v, getActiveVisit n s = some v →
      v ∈ s.visits ∧ v.user_id = n ∧ v.end_time = none ∧ v.deleted_at = none) ∧
    (∀ fid f, getFormById fid s = some f →
      ∃ fr, fr ∈ s.forms ∧ fr.id = f.id ∧ fr.deleted_at = none) ∧
    (∀ un pw res, getUser un pw s = some res →
      ∃ ur, ur ∈ s.users ∧ ur.id = res.id ∧ ur.deleted_at = none) ∧
    (∀ r, r ∈ getRoles s → r ∈ s.roles ∧ r.deleted_at = none) ∧
    (∀ c, c ∈ getCompanies s → c ∈ s.companies ∧ c.deleted_at = none) ∧
    (∀ fI vI uI out, out ∈ getFormResponses fI vI uI s →
      ∃ fr, fr ∈ s.form_responses ∧ fr.id = out.id ∧ fr.deleted_at = none) ∧
    (∀ cI sD eD uI rep, rep ∈ getVisitReports cI sD eD uI s →
      ∀ d, d ∈ rep.visits →
        ∃ v, v ∈ s.visits ∧ v.id = d.visit_id ∧ v.deleted_at = none ∧ v.end_time ≠ none) := by
  have hforms : ∀ (uid2 : Option Nat) (f : FormOut), f ∈ getForms uid2 s →
      ∃ fr, fr ∈ s.forms ∧ fr.id = f.id ∧ fr.name = f.name ∧ fr.deleted_at = none := by
    intro uid2 f hf
    unfold getForms at hf
    rcases List.mem_map.mp hf with ⟨f0, hf0, rfl⟩
    rw [mem_sortByLe] at hf0
    have hbase : f0 ∈ s.forms.filter (fun f => f.deleted_at = none) := by
      cases uid2 with
      | none => exact hf0
      | some n => exact (List.mem_filter.mp hf0).1
    have hsplit := List.mem_filter.mp hbase
    exact ⟨f0, hsplit.1, rfl, rfl, by simpa using hsplit.2⟩
  refine ⟨hforms uid, ?_, ?_, ?_, ?_, ?_, ?_, ?_, ?_⟩
  · intro u hu
    unfold getUsers at hu
    rcases List.mem_map.mp hu with ⟨u0, hu0, rfl⟩
    rw [mem_sortByLe] at hu0
    have hsplit := List.mem_filter.mp hu0
    exact ⟨u0, hsplit.1, rfl, rfl, by simpa using hsplit.2⟩
  · intro n v h
    unfold getActiveVisit at h
    cases hfl : s.visits.filter
        (fun v => v.user_id = n && v.end_time = none && v.deleted_at = none) with
    | nil =>
      rw [hfl] at h
      cases h
    | cons a tl =>
      rw [hfl] at h
      have ha : a = v := by
        simpa using h
      subst ha
      have hmem : a ∈ s.visits.filter
          (fun v => v.user_id = n && v.end_time = none && v.deleted_at = none) := by
        rw [hfl]
        exact List.mem_cons_self a tl
      have hsplit := List.mem_filter.mp hmem
      have hprops := hsplit.2
      simp only [Bool.and_eq_true, decide_eq_true_eq] at hprops
      exact ⟨hsplit.1, hprops.1.1, hprops.1.2, hprops.2⟩
  · intro fid f h
    unfold getFormById at h
    obtain ⟨fr, h1, h2, _, h4⟩ := hforms none f (List.mem_of_find?_eq_some h)
    exact ⟨fr, h1, h2, h4⟩
  · intro un pw res h
    revert h
    unfold getUser
    cases hfl : s.users.filter
        (fun x => x.username = un && x.password = pw && x.deleted_at = none) with
    | nil =>
      intro h
      cases h
    | cons a tl =>
      intro h
      dsimp only at h
      have hmem : a ∈ s.users.filter
          (fun x => x.username = un && x.password = pw && x.deleted_at = none) := by
        rw [hfl]
        exact List.mem_cons_self a tl
      have hsplit := List.mem_filter.mp hmem
      have hdel : a.deleted_at = none := by
        have hp := hsplit.2
        simp only [Bool.and_eq_true, decide_eq_true_eq] at hp
        exact hp.2
      by_cases hadm : a.is_admin = true
      · rw [if_pos hadm] at h
        injection h with h2
        subst h2
        exact ⟨a, hsplit.1, rfl, hdel⟩
      · rw [if_neg hadm] at h
        injection h with h2
        subst h2
        exact ⟨a, hsplit.1, rfl, hdel⟩
  · intro r hr
    unfold getRoles at hr
    rw [mem_sortByLe] at hr
    have hsplit := List.mem_filter.mp hr
    exact ⟨hsplit.1, by simpa using hsplit.2⟩
  · intro c hc
    unfold getCompanies at hc
    rw [mem_sortByLe] at hc
    have hsplit := List.mem_filter.mp hc
    exact ⟨hsplit.1, by simpa using hsplit.2⟩
  · intro fI vI uI out hout
    unfold getFormResponses at hout
    rcases List.mem_flatMap.mp hout with ⟨fr, hfr, h2⟩
    rcases List.mem_flatMap.mp h2 with ⟨f, hf, h3⟩
    rcases List.mem_flatMap.mp h3 with ⟨u, hu, h4⟩
    rw [mem_sortByLe] at hfr
    have hsplit := List.mem_filter.mp hfr
    have hdel : fr.deleted_at = none := by
      have hp := hsplit.2
      simp only [Bool.and_eq_true, decide_eq_true_eq] at hp
      exact hp.1.1.1
    revert h4
    by_cases he : (responsesOf s fr.id).isEmpty = true
    · rw [if_pos he]
      intro h4
      cases h4
    · rw [if_neg he]
      intro h4
      have hout2 := List.mem_singleton.mp h4
      subst hout2
      exact ⟨fr, hsplit.1, rfl, hdel⟩
  · intro cI sD eD uI rep hrep d hd
    unfold getVisitReports at hrep
    rw [mem_sortByLe] at hrep
    rcases List.mem_filterMap.mp hrep with ⟨k, hk, hf⟩
    revert hf
    cases hfl : (visitDetails cI sD eD uI s).filter
        (fun d2 => (d2.user_id, d2.company_id) = k) with
    | nil =>
      intro hf
      cases hf
    | cons d0 tl =>
      intro hf
      injection hf with h2
      subst h2
      have hd2 : d ∈ (visitDetails cI sD eD uI s).filter
          (fun d2 => (d2.user_id, d2.company_id) = k) := by
        rw [hfl]
        exact hd
      exact visitDetails_sound cI sD eD uI s d (List.mem_of_mem_filter hd2)

/-- Witness for the amended claim C8 at the counterexample store: the
form returned by getForms does come from a non-deleted forms row. -/
theorem c8_primary_filter_amended_witness :
    ∃ fr, fr ∈ c8store.forms ∧ fr.id = 1 ∧ fr.name = "F" ∧ fr.deleted_at = none := by
  obtain ⟨fr, h⟩ := (c8_primary_filter_amended none c8store).1
    { id := 1, name := "F", description := "d",
      fields := [{ id := 10, form_id := 1, name := "n", label := "l",
                   ftype := "text", required := false, sort_order := 0 }] }
    (by decide)
  exact ⟨fr, h⟩

/-! ## Concurrency guard of downloadUpdates — claim C7

Two concurrent downloadUpdates invocations, A and B, over the shared
module state syncInProgress (sync.ts line 7).  The single-threaded event
loop interleaves atomic segments at await boundaries; one invocation has
two relevant segments:
start — the synchronous prefix up to the isOnline suspension (line 178:
if syncInProgress, return, doing no work; otherwise suspend awaiting
isOnline, which is modelled as reporting online);
ready — the resumption (lines 181-204): set syncInProgress (and
globalTransaction) and issue BEGIN TRANSACTION, i.e. open the local
transaction.  A schedule is the interleaving order of segments. -/

/-- Program counter of one downloadUpdates invocation. -/
inductive RacePC
  | start
  | ready
  | done
deriving DecidableEq, Repr

/-- Identity of one of the two concurrent invocations. -/
inductive Tid
  | A
  | B
deriving DecidableEq, Repr

/-- Shared flag plus both invocations' progress; openedX records that
invocation X issued BEGIN TRANSACTION. -/
structure RaceState where
  flag : Bool
  pcA : RacePC
  openedA : Bool
  pcB : RacePC
  openedB : Bool
deriving DecidableEq, Repr

/-- One atomic segment of the scheduled invocation. -/
def raceStep (σ : RaceState) : Tid → RaceState
  | .A =>
    match σ.pcA with
    | .start => if σ.flag then { σ with pcA := .done } else { σ with pcA := .ready }
    | .ready => { σ with flag := true, pcA := .done, openedA := true }
    | .done => σ
  | .B =>
    match σ.pcB with
    | .start => if σ.flag then { σ with pcB := .done } else { σ with pcB := .ready }
    | .ready => { σ with flag := true, pcB := .done, openedB := true }
    | .done => σ

/-- Run a schedule of atomic segments. -/
def raceRun (sched : List Tid) (σ : RaceState) : RaceState :=
  sched.foldl raceStep σ

/-- Both invocations at their guard check, flag clear. -/
def raceInit : RaceState :=
  { flag := false, pcA := .start, openedA := false, pcB := .start, openedB := false }

/-- Counterexample for claim C7: under the interleaving in which both
invocations run their guard check before either resumes from isOnline,
both set the flag and both issue BEGIN TRANSACTION — two transactions
are opened, not at most one.  The guard check and the flag set are
separated by the awaited isOnline call, so the check-then-set is not
atomic. -/
theorem c7_single_flight_cex :
    (raceRun [.A, .B, .A, .B] raceInit).openedA = true ∧
    (raceRun [.A, .B, .A, .B] raceInit).openedB = true := by
  exact ⟨rfl, rfl⟩

theorem raceRun_preserves_doneB (sched : List Tid) :
    ∀ σ : RaceState, σ.pcB = .done →
      (raceRun sched σ).openedB = σ.openedB := by
  induction sched with
  | nil =>
    intro σ _
    rfl
  | cons t ts ih =>
    intro σ h
    have hstep : (raceStep σ t).pcB = .done ∧ (raceStep σ t).openedB = σ.openedB := by
      cases t with
      | A =>
        cases hA : σ.pcA with
        | start =>
          by_cases hf : σ.flag = true
          · simp [raceStep, hA, hf, h]
          · simp [raceStep, hA, hf, h]
        | ready => simp [raceStep, hA, h]
        | done => simp [raceStep, hA, h]
      | B => simp [raceStep, h]
    have := ih (raceStep σ t) hstep.1
    calc (raceRun ts (raceStep σ t)).openedB = (raceStep σ t).openedB := this
      _ = σ.openedB := hstep.2

/-- Claim C7 as amended: an invocation whose guard check runs while
syncInProgress is already set (the other invocation having completed
its isOnline check) returns immediately and never opens a transaction,
whatever the rest of the schedule does; but when both invocations pass
the check before either sets the flag, both open transactions — the
check and the set are separated by the awaited isOnline call. -/
theorem c7_drop_when_flagged_amended (σ : RaceState) (sched : List Tid)
    (hflag : σ.flag = true) (hpc : σ.pcB = .start) (hop : σ.openedB = false) :
    (raceRun sched (raceStep σ .B)).openedB = false := by
  have hstep : (raceStep σ .B).pcB = .done ∧ (raceStep σ .B).openedB = false := by
    simp [raceStep, hpc, hflag, hop]
  rw [raceRun_preserves_doneB sched (raceStep σ .B) hstep.1, hstep.2]

/-- Witness for the amended claim C7: invocation A holds the flag with
its transaction open; B's guard check runs now, and after any further
schedule B still opened no transaction. -/
theorem c7_drop_when_flagged_amended_witness :
    (raceRun [Tid.A, Tid.B]
      (raceStep { flag := true, pcA := .done, openedA := true,
                  pcB := .start, openedB := false } .B)).openedB = false :=
  c7_drop_when_flagged_amended
    { flag := true, pcA := .done, openedA := true, pcB := .start, openedB := false }
    [Tid.A, Tid.B] rfl rfl rfl

end Cga
